import Mathlib

/-!
Verification of the tito `Builder` hierarchy (`src/tito/builder.py`).

The definitions below are a shallow embedding of the pure computational
content of the builder pipeline: descriptor-line scanning and patching,
rpmbuild output parsing, display-version computation, koji tag
eligibility, file synchronization and the idempotence guards.  Strings
are modelled with Lean `String` / `List Char`; every Python single-char
`split`, `startswith` and slice is modelled at the character level.
-/

namespace Tito

/-- Character-level split, matching Python `s.split(c)` for a one-character
separator: consecutive separators produce empty pieces and a trailing
separator produces a trailing empty piece. -/
def splitOnChar (c : Char) : List Char → List (List Char)
  | [] => [[]]
  | x :: xs =>
    let r := splitOnChar c xs
    if x = c then [] :: r
    else
      match r with
      | h :: t => (x :: h) :: t
      | [] => [[x]]

/-- Python `line.startswith(pre)`, at the character level. -/
def startsWithChars (line : String) (pre : List Char) : Bool :=
  line.data.take pre.length == pre

/-- Python `s.strip()`: remove leading and trailing whitespace characters. -/
def py_strip (s : String) : List Char :=
  ((s.data.dropWhile Char.isWhitespace).reverse.dropWhile Char.isWhitespace).reverse

/-- Python `s.split(" ")` applied after a strip, as used for whitelist and
blacklist values in `tito.props`. -/
def py_split_space (cs : List Char) : List String :=
  (splitOnChar ' ' cs).map (fun l => (⟨l⟩ : String))

example : splitOnChar '\n' "a\nb\n".data = ["a".data, "b".data, "".data] := by decide

example : py_split_space (py_strip " pkgA pkgB ") = ["pkgA", "pkgB"] := by decide

/-! ### File synchronization (`Builder._sync_files`) -/

/-- The module-level constant `PROTECTED_BUILD_SYS_FILES` from `builder.py`. -/
def PROTECTED_BUILD_SYS_FILES : List String :=
  ["branch", "CVS", ".cvsignore", "Makefile", "sources", ".git", ".gitignore"]

/-- `Builder._sync_files(files_to_copy, dest_dir)`, directly translated.
Files are identified by their base filenames; `dest0` is the listing of the
destination directory before any copy.  The loop over `files_to_copy`
checks `os.path.exists(dest_path)` against the current destination state
(appending to `new_files` exactly when the path already exists, as the
source does), then performs the `cp`, which adds the file to the listing
if absent.  `copied_files` is returned as initialized: no statement in the
source ever appends to it.  Finally every non-protected listing entry that
is not among the copied filenames is collected as `old_files`.
Returns `(new_files, copied_files, old_files)`. -/
def sync_files (filenames_to_copy : List String) (dest0 : List String) :
    List String × List String × List String :=
  let step := fun (st : List String × List String) (f : String) =>
    let news := if f ∈ st.1 then st.2 ++ [f] else st.2
    let dest := if f ∈ st.1 then st.1 else st.1 ++ [f]
    (dest, news)
  let destF := (filenames_to_copy.foldl step (dest0, [])).1
  let new_files := (filenames_to_copy.foldl step (dest0, [])).2
  let copied_files : List String := []
  let old_files := destF.foldl
    (fun old f =>
      if f ∉ PROTECTED_BUILD_SYS_FILES ∧ f ∉ filenames_to_copy then old ++ [f] else old)
    []
  (new_files, copied_files, old_files)

/-! ### Koji tag eligibility (`Builder.__is_whitelisted`, `__is_blacklisted`,
`_koji_release`) -/

/-- Per-tag configuration section: the `whitelist` and `blacklist` options,
`none` when the option is not present in the config. -/
structure TagConfig where
  whitelist : Option String
  blacklist : Option String
deriving DecidableEq

/-- `Builder.__is_whitelisted`: the tag section has a `whitelist` option and
the project name is a member of its stripped, space-split word list. -/
def is_whitelisted (cfg : TagConfig) (project : String) : Bool :=
  match cfg.whitelist with
  | none => false
  | some w => decide (project ∈ py_split_space (py_strip w))

/-- `Builder.__is_blacklisted`: the tag section has a `blacklist` option and
the project name is a member of its stripped, space-split word list. -/
def is_blacklisted (cfg : TagConfig) (project : String) : Bool :=
  match cfg.blacklist with
  | none => false
  | some b => decide (project ∈ py_split_space (py_strip b))

/-- The per-tag eligibility decision of `Builder._koji_release`: when the
tag section defines a `whitelist` option, the build is submitted iff the
project is whitelisted (the `elif` on the blacklist is never evaluated);
otherwise a blacklist match skips the submission. -/
def koji_tag_submits (cfg : TagConfig) (project : String) : Bool :=
  if cfg.whitelist.isSome then
    is_whitelisted cfg project
  else
    !(is_blacklisted cfg project)

/-! ### rpmbuild output parsing (`Builder._find_wrote_in_rpmbuild_output`,
`Builder._rpm`) -/

/-- The characters of the marker `look_for = "Wrote: "`. -/
def wroteChars : List Char := "Wrote: ".data

/-- Whether a line begins with `"Wrote: "` (Python `line.startswith(look_for)`). -/
def wroteLine (line : List Char) : Bool := line.take 7 == wroteChars

/-- The accumulation loop of `_find_wrote_in_rpmbuild_output`: split the
output on newlines and append `line[len("Wrote: "):]` for every line that
begins with `"Wrote: "`. -/
def find_wrote_paths (output : String) : List String :=
  (splitOnChar '\n' output.data).foldl
    (fun paths line =>
      if wroteLine line then paths ++ [(⟨line.drop 7⟩ : String)] else paths)
    []

/-- Result of parsing package-build tool output: either the artifact paths
or the fatal parse error raised through `error_out`. -/
inductive RpmOutputResult where
  | ok (paths : List String)
  | buildOutputParseError
deriving DecidableEq

/-- `Builder._find_wrote_in_rpmbuild_output`: collect the `"Wrote: "` lines,
failing fatally when none are found. -/
def find_wrote_in_rpmbuild_output (output : String) : RpmOutputResult :=
  let paths := find_wrote_paths output
  if paths = [] then .buildOutputParseError else .ok paths

/-- The output-parsing step of `Builder._rpm` (full binary build): parse the
`"Wrote: "` lines and additionally fail with `"Error parsing rpmbuild
output"` when fewer than two paths were found. -/
def rpm_files_written (output : String) : RpmOutputResult :=
  match find_wrote_in_rpmbuild_output output with
  | .buildOutputParseError => .buildOutputParseError
  | .ok files => if files.length < 2 then .buildOutputParseError else .ok files

/-! ### Display version (`Builder._get_display_version`) -/

/-- `Builder._get_display_version`: for a `--test` build the version is
`"git-%s.%s" % (commit_count, latest_commit[:7])`; otherwise it is
`build_version.split("-")[0]`, the part of the requested version string
before the first dash (Python slicing and splitting modelled at the
character level). -/
def get_display_version (test : Bool) (build_version : String)
    (commit_count : Nat) (latest_commit : String) : String :=
  if test then
    ⟨"git-".data ++ (toString commit_count).data ++ '.' :: latest_commit.data.take 7⟩
  else
    ⟨build_version.data.takeWhile (fun c => c ≠ '-')⟩

/-! ### Patch insertion points (`UpstreamBuilder._patch_upstream`) -/

/-- Regex `^Patch(\d+):` as used in `_patch_upstream`: the line starts with
`Patch`, followed by one or more digits and a colon; returns the parsed
patch index. -/
def patchMatch (line : String) : Option Nat :=
  let cs := line.data
  if cs.take 5 = "Patch".data then
    let ds := (cs.drop 5).takeWhile Char.isDigit
    if ds = [] then none
    else
      match (cs.drop 5).dropWhile Char.isDigit with
      | ':' :: _ => some (ds.foldl (fun n c => n * 10 + (c.toNat - '0'.toNat)) 0)
      | _ => none
  else none

/-- Regex `^Source\d+:` as used in `_patch_upstream`. -/
def sourceMatch (line : String) : Bool :=
  let cs := line.data
  decide (cs.take 6 = "Source".data) &&
    (let ds := (cs.drop 6).takeWhile Char.isDigit
     !(ds.isEmpty) &&
       match (cs.drop 6).dropWhile Char.isDigit with
       | ':' :: _ => true
       | _ => false)

def prepChars : List Char := "%prep".data

def setupChars : List Char := "%setup".data

/-- The mutable loop state of `_patch_upstream`: `pn` is `patch_number`,
`pii` is `patch_insert_index`, `pai` is `patch_apply_index` and `idx` is
`array_index`. -/
structure ScanState where
  pn : Nat
  pii : Nat
  pai : Nat
  idx : Nat
deriving DecidableEq

/-- One iteration of the `_patch_upstream` scanning loop: a `Source\d+:`
match moves the insert index past the current line, a `Patch(\d+):` match
does the same and records `group(1) + 1` as the patch number, and a line
beginning with `%prep` or `%setup` places the apply index two lines past
the current line. -/
def scanStep (s : ScanState) (line : String) : ScanState :=
  { pn := match patchMatch line with
          | some n => n + 1
          | none => s.pn
  , pii := match patchMatch line with
           | some _ => s.idx + 1
           | none => if sourceMatch line then s.idx + 1 else s.pii
  , pai := if startsWithChars line prepChars then s.idx + 2
           else if startsWithChars line setupChars then s.idx + 2
           else s.pai
  , idx := s.idx + 1 }

/-- The full scan of `_patch_upstream`, starting from the defaults
`patch_number = patch_insert_index = patch_apply_index = array_index = 0`. -/
def patch_upstream_scan (lines : List String) : ScanState :=
  lines.foldl scanStep ⟨0, 0, 0, 0⟩

/-- `_patch_upstream`'s result: the computed triple, or the fatal
`error_out("Unable to insert PatchX or %patchX lines in spec file")`. -/
inductive InsertionPointsResult where
  | ok (patchNumber insertIdx applyIdx : Nat)
  | insertionPointNotFoundError
deriving DecidableEq

/-- `UpstreamBuilder._patch_upstream`: scan the descriptor lines and fail
when either computed index is still at its default value `0`. -/
def patch_upstream_points (lines : List String) : InsertionPointsResult :=
  let s := patch_upstream_scan lines
  if s.pii = 0 ∨ s.pai = 0 then .insertionPointNotFoundError
  else .ok s.pn s.pii s.pai

/-! ### Patch insertion (`UpstreamBuilder.patch_upstream`) -/

/-- Python `list.insert(i, x)`: insert before position `i`, clamping to the
end of the list when `i` exceeds the length. -/
def pyInsert (l : List String) (i : Nat) (x : String) : List String :=
  l.take i ++ x :: l.drop i

/-- The `PatchN: <filename>` directive line inserted by `patch_upstream`. -/
def patch_directive_line (pn : Nat) (patch_filename : String) : String :=
  "Patch" ++ toString pn ++ ": " ++ patch_filename ++ "\n"

/-- The `%patchN -p1` apply line inserted by `patch_upstream`. -/
def patch_apply_line (pn : Nat) : String :=
  "%patch" ++ toString pn ++ " -p1\n"

/-- The two insertions performed by `UpstreamBuilder.patch_upstream`:
first `lines.insert(patch_insert_index, "PatchN: <file>")`, then
`lines.insert(patch_apply_index, "%patchN -p1")` on the already-extended
list — the smaller (insert) index first. -/
def patch_upstream_insert (lines : List String) (pn ii ai : Nat)
    (patch_filename : String) : List String :=
  pyInsert (pyInsert lines ii (patch_directive_line pn patch_filename)) ai
    (patch_apply_line pn)

/-- Modelled from the spec's words (§4.3 `applyPatchInsertion`): the
"indices must be applied in an order that keeps the earlier insertion from
invalidating the later one — insert at the larger index first" procedure,
for comparison with the source's `patch_upstream_insert`. -/
def applyPatchInsertionSpec (lines : List String) (pn ii ai : Nat)
    (patch_filename : String) : List String :=
  if ii ≤ ai then
    pyInsert (pyInsert lines ai (patch_apply_line pn)) ii
      (patch_directive_line pn patch_filename)
  else
    pyInsert (pyInsert lines ii (patch_directive_line pn patch_filename)) ai
      (patch_apply_line pn)

/-! ### Test-specfile rewrite guard (`Builder._setup_test_specfile`,
`NoTgzBuilder._setup_test_specfile`) -/

/-- The builder state relevant to the test-specfile rewrite helper:
the `--test` flag, the `ran_setup_test_specfile` idempotence flag
(initialized `False` in `Builder.__init__`), and a count of invocations of
the external `test-setup-specfile.pl` helper. -/
structure SpecfileState where
  test : Bool
  ran_setup_test_specfile : Bool
  helper_invocations : Nat
deriving DecidableEq

/-- `Builder._setup_test_specfile`: run the external rewrite helper only
when `self.test` holds and `self.ran_setup_test_specfile` is not yet set,
then set the flag. -/
def setup_test_specfile (s : SpecfileState) : SpecfileState :=
  if s.test = true ∧ s.ran_setup_test_specfile = false then
    { s with helper_invocations := s.helper_invocations + 1
           , ran_setup_test_specfile := true }
  else s

/-- `NoTgzBuilder._setup_test_specfile` (the overriding variant): run the
external rewrite helper whenever `self.test` holds — the override neither
consults nor sets `ran_setup_test_specfile`. -/
def setup_test_specfile_no_tgz (s : SpecfileState) : SpecfileState :=
  if s.test = true then
    { s with helper_invocations := s.helper_invocations + 1 }
  else s

/-! ### Source production (`Builder.tgz` and the guarded calls in
`Builder._srpm` / `Builder._rpm`) -/

/-- Builder state relevant to source production: the `ran_tgz` flag
(initialized `False`), the accumulated `sources` and `artifacts` lists and
a count of the exports performed via `_setup_sources`. -/
structure SourceState where
  ran_tgz : Bool
  sources : List String
  artifacts : List String
  exports : Nat
deriving DecidableEq

/-- `Builder.tgz`: unconditionally run `_setup_sources` (the export), copy
the tarball to the base directory, set `ran_tgz` and append the tarball
path to `sources` and `artifacts`.  `path` is the full path of the
produced tarball. -/
def tgz (path : String) (s : SourceState) : SourceState :=
  { ran_tgz := true
  , sources := s.sources ++ [path]
  , artifacts := s.artifacts ++ [path]
  , exports := s.exports + 1 }

/-- The guarded source-preparation step executed by `Builder._srpm` and
`Builder._rpm`: `if not self.ran_tgz: self.tgz()`. -/
def ensure_tgz (path : String) (s : SourceState) : SourceState :=
  if s.ran_tgz then s else tgz path s

/-! ### Koji release loop (`Builder._koji_release` with `Builder._srpm`) -/

/-- The configuration and options consulted by `_koji_release`:
the global `--dist` override (`self.dist`, `none` when falsy), the
per-tag `disttag` option, the per-tag `whitelist`/`blacklist` options and
the `--only-tags` restriction (`[]` when falsy). -/
structure KojiEnv where
  globalDist : Option String
  disttag : String → String
  whitelist : String → Option String
  blacklist : String → Option String
  only_tags : List String

/-- A build submitted to koji: the tag it was submitted to and the dist
define of the srpm recorded in `self.srpm_location` at submission time. -/
structure KojiSubmission where
  tag : String
  srpmDist : Option String
deriving DecidableEq

/-- The dist define chosen by `Builder._srpm(dist=...)`: the global
`self.dist` option when truthy, else the `dist` argument. -/
def srpm_dist_define (globalDist : Option String) (dist : Option String) :
    Option String :=
  match globalDist with
  | some d => some d
  | none => dist

/-- The dist define an eligible tag's submission effectively uses:
the global `--dist` override when set, else the tag's configured
`disttag`. -/
def effective_dist (env : KojiEnv) (tag : String) : String :=
  match env.globalDist with
  | some d => d
  | none => env.disttag tag

/-- `Builder._koji_release`: iterate over the autobuild tags; skip a tag
excluded by `--only-tags` or by the whitelist/blacklist decision; for an
eligible tag run `self._srpm(dist=disttag)` — which overwrites
`self.srpm_location` with the freshly built srpm — and then submit
`self.srpm_location` to koji for that tag.  The state threads
`srpm_location` (as the dist define its srpm was built with) and the list
of performed submissions. -/
def koji_release_step (env : KojiEnv) (project : String)
    (st : Option String × List KojiSubmission) (tag : String) :
    Option String × List KojiSubmission :=
  if env.only_tags ≠ [] ∧ tag ∉ env.only_tags then st
  else if koji_tag_submits ⟨env.whitelist tag, env.blacklist tag⟩ project = false then st
  else
    let d := srpm_dist_define env.globalDist (some (env.disttag tag))
    (d, st.2 ++ [⟨tag, d⟩])

def koji_release (env : KojiEnv) (project : String) (tags : List String)
    (srpm0 : Option String) : Option String × List KojiSubmission :=
  tags.foldl (koji_release_step env project) (srpm0, [])

/-! ## Library lemmas -/

/-- Every element kept by `takeWhile` satisfies the predicate. -/
theorem mem_takeWhile_pred {α : Type} (p : α → Bool) (l : List α) :
    ∀ a ∈ l.takeWhile p, p a = true := by
  induction l with
  | nil => intro a h; cases h
  | cons x xs ih =>
    intro a h
    by_cases hx : p x
    · rw [List.takeWhile_cons_of_pos hx, List.mem_cons] at h
      rcases h with rfl | h
      · exact hx
      · exact ih a h
    · rw [List.takeWhile_cons_of_neg hx] at h
      cases h

/-- `dropWhile` either returns the empty list or a list whose head falsifies
the predicate. -/
theorem dropWhile_head_not {α : Type} (p : α → Bool) (l : List α) :
    l.dropWhile p = [] ∨ ∃ a t, l.dropWhile p = a :: t ∧ p a = false := by
  induction l with
  | nil => left; rfl
  | cons x xs ih =>
    by_cases hx : p x
    · rw [List.dropWhile_cons_of_pos hx]
      exact ih
    · right
      exact ⟨x, xs, List.dropWhile_cons_of_neg hx, Bool.not_eq_true _ |>.mp hx⟩

/-! ## Claim theorems -/

/-- Claim C1 (code_bug evaluation): on canonical files `{a.spec, b.patch}`
and destination `{a.spec, c.patch, .git}`, `_sync_files` returns
`new = [a.spec]` (the file whose destination path already existed),
`updated = []` (never populated by any statement in the source) and
`obsolete = [c.patch]` — not the claimed
`new = [b.patch]`, `updated = [a.spec]`, `obsolete = [c.patch]`. -/
theorem sync_files_example_bug :
    sync_files ["a.spec", "b.patch"] ["a.spec", "c.patch", ".git"]
      = (["a.spec"], [], ["c.patch"])
    ∧ ¬ sync_files ["a.spec", "b.patch"] ["a.spec", "c.patch", ".git"]
      = (["b.patch"], ["a.spec"], ["c.patch"]) := by
  decide

/-- Claim C2: when a whitelist option is configured for the tag, the build
is submitted iff the project name is a member of the whitelist's word
list, regardless of the blacklist; with no whitelist option the build is
submitted iff the project is not blacklisted; and the three concrete spec
examples evaluate accordingly. -/
theorem koji_eligibility :
    (∀ cfg : TagConfig, ∀ project w : String, cfg.whitelist = some w →
      (koji_tag_submits cfg project = true ↔
        project ∈ py_split_space (py_strip w)))
    ∧ (∀ cfg : TagConfig, ∀ project : String, cfg.whitelist = none →
      (koji_tag_submits cfg project = true ↔
        is_blacklisted cfg project = false))
    ∧ koji_tag_submits ⟨some "pkgA", none⟩ "pkgB" = false
    ∧ koji_tag_submits ⟨none, some "pkgB"⟩ "pkgB" = false
    ∧ koji_tag_submits ⟨some "pkgB", some "pkgB"⟩ "pkgB" = true := by
  refine ⟨?_, ?_, by decide, by decide, by decide⟩
  · intro cfg project w hw
    simp [koji_tag_submits, is_whitelisted, hw]
  · intro cfg project h
    simp [koji_tag_submits, h, Bool.not_eq_true']

/-- Witness for C2: applied at the concrete configuration
`whitelist = "pkgA pkgB"`, `blacklist = "pkgB"` and project `pkgB`. -/
theorem koji_eligibility_witness :
    koji_tag_submits ⟨some "pkgA pkgB", some "pkgB"⟩ "pkgB" = true ↔
      "pkgB" ∈ py_split_space (py_strip "pkgA pkgB") :=
  koji_eligibility.1 ⟨some "pkgA pkgB", some "pkgB"⟩ "pkgB" "pkgA pkgB" rfl

/-- Claim C3: for `test = false` the display version is the prefix of the
requested version string before the first `-` (the string decomposes as
that dash-free prefix followed by a remainder that is empty or begins with
`-`); for `test = true` it is `git-<count>.<first 7 chars of commit>`; and
a test-build display version never equals a non-test display version. -/
theorem display_version_properties :
    (∀ bv : String, ∀ cc : Nat, ∀ lc : String, ∃ rest : List Char,
        bv.data = (get_display_version false bv cc lc).data ++ rest
        ∧ (∀ c ∈ (get_display_version false bv cc lc).data, c ≠ '-')
        ∧ (rest = [] ∨ ∃ t, rest = '-' :: t))
    ∧ (∀ bv : String, ∀ cc : Nat, ∀ lc : String,
        (get_display_version true bv cc lc).data
          = "git-".data ++ (toString cc).data ++ '.' :: lc.data.take 7)
    ∧ (∀ bv cc lc bv' cc' lc',
        get_display_version true bv cc lc ≠ get_display_version false bv' cc' lc') := by
  refine ⟨?_, ?_, ?_⟩
  · intro bv cc lc
    refine ⟨bv.data.dropWhile (fun c => decide (c ≠ '-')), ?_, ?_, ?_⟩
    · simp [get_display_version]
    · intro c hc
      simp only [get_display_version, if_neg Bool.false_ne_true] at hc
      have := mem_takeWhile_pred (fun c => decide (c ≠ '-')) bv.data c hc
      simpa using this
    · rcases dropWhile_head_not (fun c => decide (c ≠ '-')) bv.data with h | ⟨a, t, h, ha⟩
      · left; exact h
      · right
        refine ⟨t, ?_⟩
        have : a = '-' := by simpa using ha
        rw [h, this]
  · intro bv cc lc
    simp [get_display_version]
  · intro bv cc lc bv' cc' lc' h
    have hmem : '-' ∈ (get_display_version true bv cc lc).data :=
      List.mem_append_left _
        (List.mem_append_left _ (show '-' ∈ "git-".data by decide))
    rw [h] at hmem
    have := mem_takeWhile_pred (fun c => decide (c ≠ '-')) bv'.data '-' hmem
    simp at this

/-- Witness for C3: the never-equal conjunct applied at a concrete
test-build display version and a concrete release version string. -/
theorem display_version_properties_witness :
    get_display_version true "" 5 "abcdef1234" ≠ get_display_version false "1.2.3-4" 0 "" :=
  display_version_properties.2.2 "" 5 "abcdef1234" "1.2.3-4" 0 ""

/-- Accumulator form of the `"Wrote: "` collection loop: the fold appends,
in order, the 7-character-stripped suffix of every line that begins with
the marker. -/
theorem foldl_wrote_collect (L : List (List Char)) (acc : List String) :
    L.foldl
      (fun paths line =>
        if wroteLine line then paths ++ [(⟨line.drop 7⟩ : String)] else paths)
      acc
      = acc ++ (L.filter wroteLine).map (fun l => (⟨l.drop 7⟩ : String)) := by
  induction L generalizing acc with
  | nil => simp
  | cons h t ih =>
    by_cases hw : wroteLine h
    · simp [hw, ih, List.filter_cons]
    · simp [hw, ih, List.filter_cons]

/-- The `"Wrote: "` collection equals an in-order filter-and-strip of the
newline-split output. -/
theorem find_wrote_paths_eq (output : String) :
    find_wrote_paths output
      = ((splitOnChar '\n' output.data).filter wroteLine).map
          (fun l => (⟨l.drop 7⟩ : String)) := by
  simpa using foldl_wrote_collect (splitOnChar '\n' output.data) []

/-- Claim C8: parsing the two-line example yields the two paths in order;
an output with zero `"Wrote: "` lines is a fatal parse error; parsing, when
it succeeds, returns exactly the in-order suffixes of the `"Wrote: "`
lines; and the full-build parse fails whenever fewer than two such lines
exist. -/
theorem rpmbuild_output_parsing :
    find_wrote_in_rpmbuild_output "Wrote: /a/b.src.rpm\nWrote: /a/b.rpm\n"
      = .ok ["/a/b.src.rpm", "/a/b.rpm"]
    ∧ (∀ output : String,
        ((splitOnChar '\n' output.data).filter wroteLine) = [] →
        find_wrote_in_rpmbuild_output output = .buildOutputParseError)
    ∧ (∀ output paths, find_wrote_in_rpmbuild_output output = .ok paths →
        paths = ((splitOnChar '\n' output.data).filter wroteLine).map
          (fun l => (⟨l.drop 7⟩ : String)))
    ∧ (∀ output : String,
        ((splitOnChar '\n' output.data).filter wroteLine).length < 2 →
        rpm_files_written output = .buildOutputParseError) := by
  refine ⟨by decide, ?_, ?_, ?_⟩
  · intro output h
    have hp : find_wrote_paths output = [] := by
      rw [find_wrote_paths_eq, h]; rfl
    simp [find_wrote_in_rpmbuild_output, hp]
  · intro output paths h
    by_cases hp : find_wrote_paths output = []
    · simp [find_wrote_in_rpmbuild_output, hp] at h
    · simp [find_wrote_in_rpmbuild_output, hp] at h
      rw [← h, find_wrote_paths_eq]
  · intro output hlen
    unfold rpm_files_written
    by_cases hp : find_wrote_paths output = []
    · simp [find_wrote_in_rpmbuild_output, hp]
    · have hlen' : (find_wrote_paths output).length < 2 := by
        rw [find_wrote_paths_eq, List.length_map]
        exact hlen
      simp [find_wrote_in_rpmbuild_output, hp, hlen']

/-- Witness for C8: the zero-`"Wrote:"`-lines conjunct applied at the
concrete output `"hello"`. -/
theorem rpmbuild_output_parsing_witness :
    find_wrote_in_rpmbuild_output "hello" = .buildOutputParseError :=
  rpmbuild_output_parsing.2.1 "hello" (by decide)

/-- Invariants of the `_patch_upstream` scan over a block of lines that are
either `Source`/`Patch` directives with patch index 3 or inert lines, and
that contain no `%prep`/`%setup` marker: the running index advances by the
block length, the apply index is untouched, the insert index stays below
the running index, the patch number stays in `{0, 4}` and becomes `4`
whenever a `Patch3:` line occurs, and positivity of the insert index and a
patch number of `4` are preserved. -/
theorem scan_directive_lines (L : List String)
    (hL : ∀ l ∈ L, (patchMatch l = none ∨ patchMatch l = some 3)
        ∧ startsWithChars l prepChars = false
        ∧ startsWithChars l setupChars = false)
    (s : ScanState) (hpii : s.pii ≤ s.idx) (hpn : s.pn = 0 ∨ s.pn = 4) :
    (L.foldl scanStep s).idx = s.idx + L.length
    ∧ (L.foldl scanStep s).pai = s.pai
    ∧ (L.foldl scanStep s).pii ≤ s.idx + L.length
    ∧ ((L.foldl scanStep s).pn = 0 ∨ (L.foldl scanStep s).pn = 4)
    ∧ (1 ≤ s.pii → 1 ≤ (L.foldl scanStep s).pii)
    ∧ (s.pn = 4 → (L.foldl scanStep s).pn = 4)
    ∧ ((∃ l ∈ L, patchMatch l = some 3) →
        (L.foldl scanStep s).pn = 4 ∧ 1 ≤ (L.foldl scanStep s).pii) := by
  induction L generalizing s with
  | nil =>
    refine ⟨by simp, rfl, by simpa using hpii, hpn, fun h => h, fun h => h, by simp⟩
  | cons l L ih =>
    simp only [List.foldl_cons, List.length_cons]
    have hl := hL l (by simp)
    have htl : ∀ x ∈ L, (patchMatch x = none ∨ patchMatch x = some 3)
        ∧ startsWithChars x prepChars = false
        ∧ startsWithChars x setupChars = false :=
      fun x hx => hL x (by simp [hx])
    have hidx' : (scanStep s l).idx = s.idx + 1 := rfl
    have hpai' : (scanStep s l).pai = s.pai := by
      simp [scanStep, hl.2.1, hl.2.2]
    have hpii' : (scanStep s l).pii ≤ s.idx + 1 := by
      rcases hl.1 with hp | hp
      · simp only [scanStep, hp]
        by_cases hsrc : sourceMatch l = true
        · simp [hsrc]
        · simp [hsrc]; omega
      · simp [scanStep, hp]
    have hpn' : (scanStep s l).pn = 0 ∨ (scanStep s l).pn = 4 := by
      rcases hl.1 with hp | hp
      · simpa [scanStep, hp] using hpn
      · simp [scanStep, hp]
    have hmonopii : 1 ≤ s.pii → 1 ≤ (scanStep s l).pii := by
      intro h1
      rcases hl.1 with hp | hp
      · simp only [scanStep, hp]
        by_cases hsrc : sourceMatch l = true
        · simp [hsrc]
        · simp [hsrc]; omega
      · simp [scanStep, hp]
    have hmonopn : s.pn = 4 → (scanStep s l).pn = 4 := by
      intro h4
      rcases hl.1 with hp | hp <;> simp [scanStep, hp, h4]
    obtain ⟨ihidx, ihpai, ihpii, ihpn, ihmps, ihmpn, ihex⟩ :=
      ih htl (scanStep s l) (by rw [hidx']; exact hpii') hpn'
    refine ⟨?_, ?_, ?_, ihpn, ?_, ?_, ?_⟩
    · rw [ihidx, hidx']; omega
    · rw [ihpai, hpai']
    · rw [ihidx, hidx'] at *
      omega
    · intro h1
      exact ihmps (hmonopii h1)
    · intro h4
      exact ihmpn (hmonopn h4)
    · rintro ⟨l', hl', hp3⟩
      rcases List.mem_cons.mp hl' with rfl | hmem
      · have hpn4 : (scanStep s l').pn = 4 := by simp [scanStep, hp3]
        have hpii1 : 1 ≤ (scanStep s l').pii := by
          simp only [scanStep, hp3]; omega
        exact ⟨ihmpn hpn4, ihmps hpii1⟩
      · exact ihex ⟨l', hmem, hp3⟩

/-- The `_patch_upstream` scan ignores lines that match none of the
patterns: only the running index advances. -/
theorem scan_neutral_lines (L : List String)
    (h : ∀ l ∈ L, sourceMatch l = false ∧ patchMatch l = none
        ∧ startsWithChars l prepChars = false
        ∧ startsWithChars l setupChars = false)
    (s : ScanState) :
    L.foldl scanStep s = ⟨s.pn, s.pii, s.pai, s.idx + L.length⟩ := by
  induction L generalizing s with
  | nil => simp
  | cons l L ih =>
    have hl := h l (by simp)
    have hstep : scanStep s l = ⟨s.pn, s.pii, s.pai, s.idx + 1⟩ := by
      simp [scanStep, hl.1, hl.2.1, hl.2.2.1, hl.2.2.2]
    rw [List.foldl_cons, hstep, ih (fun x hx => h x (by simp [hx]))]
    simp
    omega

/-- Claim C4: for any descriptor whose lines before a `%prep` marker are
`Source`/`Patch` directives (every patch directive carrying index 3,
with at least one `Source` directive and at least one `Patch3` directive,
in any order, possibly interleaved with inert lines) followed by inert
lines, `_patch_upstream` returns patch number `4` and an apply index
strictly greater than the insert index. -/
theorem patch_insertion_points_patch3 (pre post : List String)
    (hpre : ∀ l ∈ pre, (patchMatch l = none ∨ patchMatch l = some 3)
        ∧ startsWithChars l prepChars = false
        ∧ startsWithChars l setupChars = false)
    (_hsrc : ∃ l ∈ pre, sourceMatch l = true)
    (hp3 : ∃ l ∈ pre, patchMatch l = some 3)
    (hpost : ∀ l ∈ post, sourceMatch l = false ∧ patchMatch l = none
        ∧ startsWithChars l prepChars = false
        ∧ startsWithChars l setupChars = false) :
    ∃ pii pai, patch_upstream_points (pre ++ "%prep" :: post)
        = .ok 4 pii pai ∧ pii < pai := by
  obtain ⟨hidx, hpai, hpiiB, hpn, hmps, hmpn, hex⟩ :=
    scan_directive_lines pre hpre ⟨0, 0, 0, 0⟩ (by simp) (Or.inl rfl)
  obtain ⟨hpn4, hpii1⟩ := hex hp3
  set s1 := pre.foldl scanStep ⟨0, 0, 0, 0⟩ with hs1
  have hprep : scanStep s1 "%prep" = ⟨4, s1.pii, s1.idx + 2, s1.idx + 1⟩ := by
    have h1 : patchMatch "%prep" = none := by decide
    have h2 : sourceMatch "%prep" = false := by decide
    have h3 : startsWithChars "%prep" prepChars = true := by decide
    simp [scanStep, h1, h2, h3, hpn4]
  have hneu := scan_neutral_lines post hpost (scanStep s1 "%prep")
  have hfold : (pre ++ "%prep" :: post).foldl scanStep ⟨0, 0, 0, 0⟩
      = ⟨4, s1.pii, s1.idx + 2, s1.idx + 1 + post.length⟩ := by
    rw [List.foldl_append, ← hs1, List.foldl_cons, hprep]
    rw [hprep] at hneu
    exact hneu
  refine ⟨s1.pii, s1.idx + 2, ?_, ?_⟩
  · have h0 : ¬ s1.pii = 0 := by omega
    simp [patch_upstream_points, patch_upstream_scan, hfold, h0]
  · omega

/-- Witness for C4: the theorem applied to the concrete descriptor
`Source0`, `Patch3`, `%prep`, one inert trailing line. -/
theorem patch_insertion_points_patch3_witness :
    ∃ pii pai, patch_upstream_points
        (["Source0: project.tar.gz", "Patch3: old.patch"] ++ "%prep" :: ["%build"])
        = .ok 4 pii pai ∧ pii < pai :=
  patch_insertion_points_patch3 ["Source0: project.tar.gz", "Patch3: old.patch"]
    ["%build"] (by decide) (by decide) (by decide) (by decide)

/-- Claim C5: `_patch_upstream` fails with the insertion-point error
whenever either scanned index is still at its default `0`; in particular a
descriptor none of whose lines is a `Source`/`Patch` directive or a
`%prep`/`%setup` marker fails with that error. -/
theorem patch_insertion_points_failure :
    (∀ lines : List String,
        (patch_upstream_scan lines).pii = 0 ∨ (patch_upstream_scan lines).pai = 0 →
        patch_upstream_points lines = .insertionPointNotFoundError)
    ∧ (∀ lines : List String,
        (∀ l ∈ lines, sourceMatch l = false ∧ patchMatch l = none
          ∧ startsWithChars l prepChars = false
          ∧ startsWithChars l setupChars = false) →
        patch_upstream_points lines = .insertionPointNotFoundError) := by
  constructor
  · intro lines h
    simp [patch_upstream_points, h]
  · intro lines h
    have hs := scan_neutral_lines lines h ⟨0, 0, 0, 0⟩
    simp [patch_upstream_points, patch_upstream_scan, hs]

/-- Witness for C5: a descriptor with neither anchor. -/
theorem patch_insertion_points_failure_witness :
    patch_upstream_points ["hello", "world"] = .insertionPointNotFoundError :=
  patch_insertion_points_failure.2 ["hello", "world"] (by decide)

/-- Python `list.insert` always grows the list by one element. -/
theorem pyInsert_length (l : List String) (i : Nat) (x : String) :
    (pyInsert l i x).length = l.length + 1 := by
  simp [pyInsert]
  omega

/-- An element inserted at an in-range position lands at that position. -/
theorem pyInsert_getElem_insert_pos (l : List String) (i : Nat) (x : String)
    (h : i ≤ l.length) :
    (pyInsert l i x)[i]? = some x := by
  have hlt : (l.take i).length = i := by simp; omega
  rw [pyInsert, List.getElem?_append_right (by omega), hlt]
  simp

/-- Positions strictly before an in-range insertion point are unchanged by
the insertion. -/
theorem pyInsert_getElem_lt (l : List String) (i : Nat) (x : String) (j : Nat)
    (hj : j < i) (hjl : j < l.length) :
    (pyInsert l i x)[j]? = l[j]? := by
  have h1 : j < (l.take i).length := by simp; omega
  rw [pyInsert, List.getElem?_append, if_pos h1, List.getElem?_take, if_pos hj]

/-- Claim C6 (counterexample): on the descriptor
`["Source0: s", "%prep", "next"]` with the computed indices
`insert = 1`, `apply = 3`, the source's insertion procedure (smaller index
first) produces a different list from the spec's "insert at the larger
index first" procedure, and only the source's procedure leaves the apply
directive at the computed apply index. -/
theorem patch_upstream_insert_order_cex :
    patch_upstream_insert ["Source0: s", "%prep", "next"] 0 1 3 "f.patch"
      ≠ applyPatchInsertionSpec ["Source0: s", "%prep", "next"] 0 1 3 "f.patch"
    ∧ (applyPatchInsertionSpec ["Source0: s", "%prep", "next"] 0 1 3 "f.patch")[3]?
      ≠ some (patch_apply_line 0)
    ∧ (patch_upstream_insert ["Source0: s", "%prep", "next"] 0 1 3 "f.patch")[3]?
      = some (patch_apply_line 0) := by
  decide

/-- Claim C6 (amended): `patch_upstream` inserts exactly two lines — the
`PatchN:` directive first at the insert index and then the `%patchN -p1`
line at the (pre-compensated) apply index — and in the resulting list the
directive sits at the insert index and the apply line at the apply
index. -/
theorem patch_upstream_insert_positions (lines : List String) (pn ii ai : Nat)
    (patch_filename : String) (h1 : ii < ai) (h2 : ai ≤ lines.length + 1) :
    (patch_upstream_insert lines pn ii ai patch_filename).length
      = lines.length + 2
    ∧ (patch_upstream_insert lines pn ii ai patch_filename)[ii]?
      = some (patch_directive_line pn patch_filename)
    ∧ (patch_upstream_insert lines pn ii ai patch_filename)[ai]?
      = some (patch_apply_line pn) := by
  simp only [patch_upstream_insert]
  refine ⟨?_, ?_, ?_⟩
  · rw [pyInsert_length, pyInsert_length]
  · rw [pyInsert_getElem_lt _ _ _ _ h1 (by rw [pyInsert_length]; omega),
      pyInsert_getElem_insert_pos _ _ _ (by omega)]
  · rw [pyInsert_getElem_insert_pos _ _ _ (by rw [pyInsert_length]; omega)]

/-- Witness for the amended C6: the insertion applied at concrete indices
`insert = 1 < apply = 3` in a three-line descriptor. -/
theorem patch_upstream_insert_positions_witness :
    (patch_upstream_insert ["a", "b", "c"] 0 1 3 "f.patch").length
      = (["a", "b", "c"] : List String).length + 2
    ∧ (patch_upstream_insert ["a", "b", "c"] 0 1 3 "f.patch")[1]?
      = some (patch_directive_line 0 "f.patch")
    ∧ (patch_upstream_insert ["a", "b", "c"] 0 1 3 "f.patch")[3]?
      = some (patch_apply_line 0) :=
  patch_upstream_insert_positions ["a", "b", "c"] 0 1 3 "f.patch"
    (by decide) (by decide)

/-- One call to the guarded base-class rewrite preserves the guard
invariant: the flag being clear implies no helper invocation yet, and the
invocation count never exceeds one. -/
theorem setup_guard_invariant (s : SpecfileState)
    (h : (s.ran_setup_test_specfile = false → s.helper_invocations = 0)
        ∧ s.helper_invocations ≤ 1) :
    ((setup_test_specfile s).ran_setup_test_specfile = false →
        (setup_test_specfile s).helper_invocations = 0)
    ∧ (setup_test_specfile s).helper_invocations ≤ 1 := by
  unfold setup_test_specfile
  by_cases hc : s.test = true ∧ s.ran_setup_test_specfile = false
  · rw [if_pos hc]
    have h0 : s.helper_invocations = 0 := h.1 hc.2
    exact ⟨fun hfalse => by simp at hfalse, by simp [h0]⟩
  · rw [if_neg hc]
    exact h

/-- Claim C7: the base-class `_setup_test_specfile` invokes the external
rewrite helper at most once however many times it is called in one run,
and never for a non-test run; the `NoTgzBuilder` override, however,
invokes the helper on every call of a test run — twice after two calls —
violating the at-most-once guarantee. -/
theorem setup_test_specfile_guard :
    (∀ (t r : Bool) (n : Nat),
        (setup_test_specfile^[n] ⟨t, r, 0⟩).helper_invocations ≤ 1)
    ∧ (∀ (r : Bool) (n : Nat),
        (setup_test_specfile^[n] ⟨false, r, 0⟩).helper_invocations = 0)
    ∧ (setup_test_specfile_no_tgz
        (setup_test_specfile_no_tgz ⟨true, false, 0⟩)).helper_invocations = 2
    ∧ ¬ (setup_test_specfile_no_tgz
        (setup_test_specfile_no_tgz ⟨true, false, 0⟩)).helper_invocations ≤ 1 := by
  refine ⟨?_, ?_, by decide, by decide⟩
  · intro t r n
    have : ∀ m : Nat, ∀ s : SpecfileState,
        ((s.ran_setup_test_specfile = false → s.helper_invocations = 0)
          ∧ s.helper_invocations ≤ 1) →
        ((setup_test_specfile^[m] s).ran_setup_test_specfile = false →
            (setup_test_specfile^[m] s).helper_invocations = 0)
        ∧ (setup_test_specfile^[m] s).helper_invocations ≤ 1 := by
      intro m
      induction m with
      | zero => intro s hs; simpa using hs
      | succ m ih =>
        intro s hs
        rw [Function.iterate_succ_apply']
        exact setup_guard_invariant _ (ih s hs)
    exact (this n ⟨t, r, 0⟩ ⟨fun _ => rfl, by simp⟩).2
  · intro r n
    rw [Function.iterate_fixed (by simp [setup_test_specfile])]

/-- Witness for C7: the at-most-once conjunct applied to three successive
guarded calls in a test run. -/
theorem setup_test_specfile_guard_witness :
    (setup_test_specfile^[3] ⟨true, false, 0⟩).helper_invocations ≤ 1 :=
  setup_test_specfile_guard.1 true false 3

/-- Claim C9 (counterexample): calling `Builder.tgz` itself twice performs
the export twice — the second call is not a no-op and does not return
cached state (it re-runs `_setup_sources` and appends the tarball path
again). -/
theorem tgz_twice_reexports :
    (tgz "pkg-1.0.tar.gz" (tgz "pkg-1.0.tar.gz" ⟨false, [], [], 0⟩)).exports = 2
    ∧ ¬ (tgz "pkg-1.0.tar.gz"
        (tgz "pkg-1.0.tar.gz" ⟨false, [], [], 0⟩)).exports = 1
    ∧ tgz "pkg-1.0.tar.gz" (tgz "pkg-1.0.tar.gz" ⟨false, [], [], 0⟩)
      ≠ tgz "pkg-1.0.tar.gz" ⟨false, [], [], 0⟩ := by
  decide

/-- Claim C9 (amended): the guarded source-preparation step used by the
srpm/rpm stages (`if not self.ran_tgz: self.tgz()`) is idempotent — a
second invocation is a no-op on the whole state — and two invocations from
a fresh run state perform exactly one export. -/
theorem ensure_tgz_idempotent :
    (∀ (p : String) (s : SourceState),
        ensure_tgz p (ensure_tgz p s) = ensure_tgz p s)
    ∧ (∀ p : String, (ensure_tgz p (ensure_tgz p ⟨false, [], [], 0⟩)).exports = 1) := by
  constructor
  · intro p s
    by_cases h : s.ran_tgz
    · simp [ensure_tgz, h]
    · simp [ensure_tgz, h, tgz]
  · intro p
    simp [ensure_tgz, tgz]

/-- Witness for the amended C9: idempotence of the guarded step at a
concrete path and fresh run state. -/
theorem ensure_tgz_idempotent_witness :
    ensure_tgz "pkg-1.0.tar.gz" (ensure_tgz "pkg-1.0.tar.gz" ⟨false, [], [], 0⟩)
      = ensure_tgz "pkg-1.0.tar.gz" ⟨false, [], [], 0⟩ :=
  ensure_tgz_idempotent.1 "pkg-1.0.tar.gz" ⟨false, [], [], 0⟩

/-- The koji release loop only ever appends submissions whose recorded
srpm was built, in the same iteration, with the submitting tag's effective
dist define. -/
theorem koji_release_fold_aux (env : KojiEnv) (project : String)
    (tags : List String) :
    ∀ st : Option String × List KojiSubmission,
      (∀ sub ∈ st.2, sub.srpmDist = some (effective_dist env sub.tag)) →
      ∀ sub ∈ (tags.foldl (koji_release_step env project) st).2,
        sub.srpmDist = some (effective_dist env sub.tag) := by
  induction tags with
  | nil => intro st h; simpa using h
  | cons t ts ih =>
    intro st h
    rw [List.foldl_cons]
    apply ih
    intro sub hsub
    unfold koji_release_step at hsub
    by_cases h1 : env.only_tags ≠ [] ∧ t ∉ env.only_tags
    · rw [if_pos h1] at hsub
      exact h sub hsub
    · rw [if_neg h1] at hsub
      by_cases h2 : koji_tag_submits ⟨env.whitelist t, env.blacklist t⟩ project = false
      · rw [if_pos h2] at hsub
        exact h sub hsub
      · rw [if_neg h2] at hsub
        simp only [List.mem_append, List.mem_singleton] at hsub
        rcases hsub with hm | hm
        · exact h sub hm
        · rw [hm]
          simp [srpm_dist_define, effective_dist]
          cases env.globalDist <;> rfl

/-- Claim C10 (amended): every submission recorded by `_koji_release`
carries an srpm freshly built, in that same iteration, with the
submitting tag's effective dist define — the tag's configured `disttag`,
or the global `--dist` override when one is set — so no submission reuses
the srpm of a different tag's build or a pre-existing srpm location. -/
theorem koji_release_fresh_srpm (env : KojiEnv) (project : String)
    (tags : List String) (srpm0 : Option String) :
    ∀ sub ∈ (koji_release env project tags srpm0).2,
      sub.srpmDist = some (effective_dist env sub.tag) :=
  koji_release_fold_aux env project tags (srpm0, []) (by simp)

/-- Concrete environment refuting C10 as stated: a global `--dist`
override `.el5` together with a tag whose configured disttag is `.el6`. -/
def kojiCexEnv : KojiEnv :=
  ⟨some ".el5", fun _ => ".el6", fun _ => none, fun _ => none, []⟩

/-- Claim C10 (counterexample): with a global dist override in effect, the
submission for `tagA` records an srpm built with `.el5`, not with the
tag's configured disttag `.el6` — the srpm is not "built with that tag's
configured dist-tag". -/
theorem koji_release_global_dist_cex :
    (koji_release kojiCexEnv "pkgB" ["tagA"] none).2
      = [⟨"tagA", some ".el5"⟩]
    ∧ kojiCexEnv.disttag "tagA" = ".el6"
    ∧ (some ".el5" : Option String) ≠ some ".el6" := by
  refine ⟨by decide, rfl, by decide⟩

/-- Demonstration environment for the C10 witness: no global override,
disttag `.fc20` for every tag, no allow/deny lists. -/
def kojiDemoEnv : KojiEnv :=
  ⟨none, fun _ => ".fc20", fun _ => none, fun _ => none, []⟩

/-- Witness for the amended C10: the theorem applied to the single
submission of a one-tag release. -/
theorem koji_release_fresh_srpm_witness :
    (⟨"tagA", some ".fc20"⟩ : KojiSubmission).srpmDist
      = some (effective_dist kojiDemoEnv "tagA") :=
  koji_release_fresh_srpm kojiDemoEnv "pkgB" ["tagA"] none
    ⟨"tagA", some ".fc20"⟩ (by decide)

end Tito
